import Mathlib

/-!
Verification of the validation-and-import pipeline of the Estatesync
repository: a shallow embedding of src/validations/buyer.ts (the zod
buyerSchema, zod v4 semantics as pinned by the safeExtend call),
src/utils/csv-validator.ts (validateCSVRow, validateCSVData), and the
transformCsvRow / parseAndValidateCSV row loop of the CSV import module.

Strings are modelled through their character lists; the JavaScript
string operations used by the source (trim, split, parseInt, regex
tests) are re-implemented below on that representation.  Machine
numerics: budgets are modelled as exact integers; the source only ever
produces them through parseInt, and every input considered here is far
inside the IEEE-754 safe-integer range, where JavaScript arithmetic is
exact.
-/

namespace EstateSync

/-- The whitespace class of JavaScript (the characters trimmed by
String.prototype.trim and skipped by parseInt); the ASCII members plus
NBSP, which are the only ones that can occur in the inputs modelled
here. -/
def jsIsSpace (c : Char) : Bool :=
  c = ' ' || c = '\t' || c = '\n' || c = '\r' || c = '\x0b' || c = '\x0c' || c = ' '

/-- JavaScript String.prototype.trim: drop leading and trailing
whitespace. -/
def jsTrim (s : String) : String :=
  ⟨((s.data.dropWhile jsIsSpace).reverse.dropWhile jsIsSpace).reverse⟩

/-- Split a character list at every occurrence of the separator
character, JavaScript String.prototype.split with a one-character
separator: the empty string splits to a single empty piece. -/
def splitCharAux (sep : Char) : List Char → List Char → List String
  | [], acc => [⟨acc.reverse⟩]
  | c :: cs, acc =>
    if c = sep then ⟨acc.reverse⟩ :: splitCharAux sep cs []
    else splitCharAux sep cs (c :: acc)

/-- JavaScript s.split(sep) for a one-character separator. -/
def jsSplit (sep : Char) (s : String) : List String :=
  splitCharAux sep s.data []

/-- JavaScript parseInt(s, 10): skip leading whitespace, read an
optional sign, then the longest prefix of decimal digits; no digit
gives NaN, modelled as none. -/
def jsParseInt (s : String) : Option Int :=
  let t := s.data.dropWhile jsIsSpace
  let signRest : Bool × List Char :=
    match t with
    | '-' :: cs => (true, cs)
    | '+' :: cs => (false, cs)
    | cs => (false, cs)
  let ds := signRest.2.takeWhile Char.isDigit
  if ds.isEmpty then none
  else
    let v : Int := Int.ofNat (ds.foldl (fun n c => 10 * n + (c.toNat - '0'.toNat)) 0)
    some (if signRest.1 then -v else v)

/-- The apostrophe character, which the zod email pattern admits in the
local part. -/
def apos : Char := Char.ofNat 39

/-- Character class of the local part of the zod email pattern. -/
def isLocalChar (c : Char) : Bool :=
  c.isAlphanum || c = '_' || c = apos || c = '+' || c = '-' || c = '.'

/-- Character class allowed as the final character of the local part of
the zod email pattern (no dot, no apostrophe). -/
def isLocalLastChar (c : Char) : Bool :=
  c.isAlphanum || c = '_' || c = '+' || c = '-'

/-- Two consecutive dots somewhere in the list, the negative lookahead
of the zod email pattern. -/
def hasDoubleDot : List Char → Bool
  | '.' :: '.' :: _ => true
  | _ :: cs => hasDoubleDot cs
  | [] => false

/-- A domain label of the zod email pattern: alphanumeric first
character, then alphanumerics and hyphens. -/
def isDomainLabel (l : String) : Bool :=
  match l.data with
  | [] => false
  | c :: cs => c.isAlphanum && cs.all (fun d => d.isAlphanum || d = '-')

/-- The final domain part of the zod email pattern: at least two
letters. -/
def isTld (l : String) : Bool :=
  decide (2 ≤ l.data.length) && l.data.all Char.isAlpha

/-- Whether the pieces of the domain, split at the dots, form at least
one label followed by a top-level part.  The label group of the zod
pattern is one-or-more, so a dotless domain (a single piece, no label
before the top-level part) is rejected. -/
def isDomain : List String → Bool
  | [] => false
  | [_] => false
  | [l, t] => isDomainLabel l && isTld t
  | l :: rest => isDomainLabel l && isDomain rest

/-- The zod default email pattern (case-insensitive):
no leading dot, no double dot, a local part over the local character
class ending in a restricted character, one at sign, and a domain of
one or more labels followed by a letters-only top-level part.  The
character classes contain no at sign and no dot inside labels, so the
pattern is equivalent to this decomposition at the unique at sign and
at the dots. -/
def isZodEmail (s : String) : Bool :=
  match s.data with
  | [] => false
  | c0 :: _ =>
    if c0 = '.' then false
    else if hasDoubleDot s.data then false
    else
      match jsSplit '@' s with
      | [lpart, dpart] =>
        (match lpart.data.reverse with
         | [] => false
         | lastC :: restRev => isLocalLastChar lastC && restRev.all isLocalChar)
        && isDomain (jsSplit '.' dpart)
      | _ => false

/-- Join a path with dots, JavaScript path.join applied in
validateCSVRow. -/
def joinDot : List String → String
  | [] => ""
  | [s] => s
  | s :: rest => s ++ "." ++ joinDot rest

/-! ## The buyerSchema of src/validations/buyer.ts

zod issues are modelled by their path and message; every issue raised by
buyerSchema has a one-element path.  A parse outcome is either invalid
(zod: an aborting issue occurred, after which refinements do not run)
or a value together with the accumulated non-aborting issues (zod:
status valid when the list is empty, dirty otherwise).  safeParse
succeeds exactly when the outcome is a value with no issues. -/

structure Issue where
  path : List String
  message : String
  deriving Repr, DecidableEq

inductive PResult (α : Type) where
  | invalid (issues : List Issue)
  | valid (value : α) (issues : List Issue)
  deriving Repr, DecidableEq

/-- All issues accumulated by a parse. -/
def PResult.issues : PResult α → List Issue
  | .invalid is => is
  | .valid _ is => is

/-- The parsed value, absent when the parse aborted. -/
def PResult.value? : PResult α → Option α
  | .invalid _ => none
  | .valid v _ => some v

/-- zod safeParse success: a value and no issues at all. -/
def PResult.success : PResult α → Bool
  | .valid _ [] => true
  | _ => false

/-! Fixed messages.  The custom messages are copied from
src/validations/buyer.ts; the remaining ones are the zod default
english messages (zod v4 wording — no claim depends on the default
wording). -/

def fullNameMinMsg : String := "Full name must be at least 2 characters"
def fullNameMaxMsg : String := "Full name must not exceed 80 characters"
def emailMsg : String := "Invalid email address"
def phoneRegexMsg : String := "Phone must be 10-15 digits only"
def phoneMinMsg : String := "Phone must be at least 10 digits"
def phoneMaxMsg : String := "Phone must not exceed 15 digits"
def notesMaxMsg : String := "Notes must not exceed 1000 characters"
def bhkRequiredMsg : String := "BHK is required for Apartment and Villa properties"
def budgetOrderMsg : String := "Budget maximum must be greater than or equal to minimum"
def requiredStringMsg : String := "Invalid input: expected string, received undefined"
def nanNumberMsg : String := "Invalid input: expected number, received NaN"
def positiveNumberMsg : String := "Too small: expected number to be >0"
def invalidUnionMsg : String := "Invalid input"

/-- The zod default message for an invalid enum option. -/
def invalidOptionMsg (values : List String) : String :=
  "Invalid option: expected one of " ++
    String.intercalate "|" (values.map (fun v => "\"" ++ v ++ "\""))

def cityValues : List String := ["Chandigarh", "Mohali", "Zirakpur", "Panchkula", "Other"]
def propertyTypeValues : List String := ["Apartment", "Villa", "Plot", "Office", "Retail"]
def bhkValues : List String := ["1", "2", "3", "4", "Studio"]
def purposeValues : List String := ["Buy", "Rent"]
def timelineValues : List String := ["0-3m", "3-6m", ">6m", "Exploring"]
def sourceValues : List String := ["Website", "Referral", "Walk-in", "Call", "Other"]
def statusValues : List String :=
  ["New", "Qualified", "Contacted", "Visited", "Negotiation", "Converted", "Dropped"]

/-- z.string().min(2, ...).max(80, ...): a missing value aborts, length
violations accumulate without aborting (zod checks continue).  Lengths
are code-point counts; all lengths compared here are of ASCII
strings, where this agrees with the UTF-16 length JavaScript uses. -/
def parseFullName : Option String → PResult String
  | none => .invalid [⟨["fullName"], requiredStringMsg⟩]
  | some s =>
    .valid s
      ((if s.data.length < 2 then [⟨["fullName"], fullNameMinMsg⟩] else []) ++
       (if 80 < s.data.length then [⟨["fullName"], fullNameMaxMsg⟩] else []))

/-- z.string().email(...).optional().or(z.literal("")): a union.  An
absent value satisfies the optional branch; the empty string satisfies
the literal branch; a valid email satisfies the first branch; anything
else fails both branches, which in zod v4 produces one aborting
invalid-union issue. -/
def parseEmail : Option String → PResult (Option String)
  | none => .valid none []
  | some s =>
    if isZodEmail s then .valid (some s) []
    else if s = "" then .valid (some "") []
    else .invalid [⟨["email"], invalidUnionMsg⟩]

/-- z.string().regex(phoneRegex, ...).min(10, ...).max(15, ...): the
regex, min and max checks all run and accumulate without aborting. -/
def parsePhone : Option String → PResult String
  | none => .invalid [⟨["phone"], requiredStringMsg⟩]
  | some s =>
    .valid s
      ((if s.data.all Char.isDigit && decide (10 ≤ s.data.length)
            && decide (s.data.length ≤ 15) then []
        else [⟨["phone"], phoneRegexMsg⟩]) ++
       (if s.data.length < 10 then [⟨["phone"], phoneMinMsg⟩] else []) ++
       (if 15 < s.data.length then [⟨["phone"], phoneMaxMsg⟩] else []))

/-- z.enum(values) for a required field: any value outside the closed
set, including an absent value, aborts with an invalid-option issue. -/
def parseEnumField (field : String) (values : List String) : Option String → PResult String
  | none => .invalid [⟨[field], invalidOptionMsg values⟩]
  | some s =>
    if s ∈ values then .valid s []
    else .invalid [⟨[field], invalidOptionMsg values⟩]

/-- z.enum(bhkValues).optional(): absent is accepted; a present value
outside the closed set aborts. -/
def parseBhk : Option String → PResult (Option String)
  | none => .valid none []
  | some s =>
    if s ∈ bhkValues then .valid (some s) []
    else .invalid [⟨["bhk"], invalidOptionMsg bhkValues⟩]

/-- z.coerce.number().int().positive().optional() applied to the value
validateCSVRow computes: absent stays absent; NaN (modelled as
some none) aborts with an invalid-type issue; an integer passes the
int check and accumulates a non-aborting too-small issue unless it is
strictly positive. -/
def parseBudgetField (field : String) : Option (Option Int) → PResult (Option Int)
  | none => .valid none []
  | some none => .invalid [⟨[field], nanNumberMsg⟩]
  | some (some n) =>
    .valid (some n) (if n ≤ 0 then [⟨[field], positiveNumberMsg⟩] else [])

/-- z.enum(statusValues).default("New"): an absent value takes the
default; a present value outside the closed set aborts. -/
def parseStatus : Option String → PResult String
  | none => .valid "New" []
  | some s =>
    if s ∈ statusValues then .valid s []
    else .invalid [⟨["status"], invalidOptionMsg statusValues⟩]

/-- z.string().max(1000, ...).optional(). -/
def parseNotes : Option String → PResult (Option String)
  | none => .valid none []
  | some s =>
    .valid (some s) (if 1000 < s.data.length then [⟨["notes"], notesMaxMsg⟩] else [])

/-- z.array(z.string()).default([]): every supplied element is already
a string, so a supplied array always passes; an absent value takes the
default. -/
def parseTags : Option (List String) → PResult (List String)
  | none => .valid [] []
  | some l => .valid l []

/-- The intermediate record handed to buyerSchema.safeParse.  Budgets
are Option (Option Int): the outer layer is undefined versus a number,
the inner layer NaN (none) versus an integer value.  The processedRow
built by validateCSVRow contains no attachmentUrl key, so that
field of the schema (optional-or-empty-literal) always parses to
undefined and is not represented. -/
structure ProcessedRow where
  fullName : Option String
  email : Option String
  phone : Option String
  city : Option String
  propertyType : Option String
  bhk : Option String
  purpose : Option String
  budgetMin : Option (Option Int)
  budgetMax : Option (Option Int)
  timeline : Option String
  source : Option String
  notes : Option String
  tags : Option (List String)
  status : Option String
  deriving Repr, DecidableEq

/-- The validated, normalized record produced by a successful
buyerSchema parse. -/
structure Lead where
  fullName : String
  email : Option String
  phone : String
  city : String
  propertyType : String
  bhk : Option String
  purpose : String
  budgetMin : Option Int
  budgetMax : Option Int
  timeline : String
  source : String
  status : String
  notes : Option String
  tags : List String
  deriving Repr, DecidableEq

/-- All issues of the per-field phase of the object parse, in shape-key
order (zod parses every field and accumulates every issue even when an
earlier field aborted). -/
def shapeIssues (pr : ProcessedRow) : List Issue :=
  (parseFullName pr.fullName).issues ++
  (parseEmail pr.email).issues ++
  (parsePhone pr.phone).issues ++
  (parseEnumField "city" cityValues pr.city).issues ++
  (parseEnumField "propertyType" propertyTypeValues pr.propertyType).issues ++
  (parseBhk pr.bhk).issues ++
  (parseEnumField "purpose" purposeValues pr.purpose).issues ++
  (parseBudgetField "budgetMin" pr.budgetMin).issues ++
  (parseBudgetField "budgetMax" pr.budgetMax).issues ++
  (parseEnumField "timeline" timelineValues pr.timeline).issues ++
  (parseEnumField "source" sourceValues pr.source).issues ++
  (parseStatus pr.status).issues ++
  (parseNotes pr.notes).issues ++
  (parseTags pr.tags).issues

/-- The output value of the object parse, defined exactly when no field
aborted. -/
def shapeValue? (pr : ProcessedRow) : Option Lead :=
  (parseFullName pr.fullName).value?.bind fun fullName =>
  (parseEmail pr.email).value?.bind fun email =>
  (parsePhone pr.phone).value?.bind fun phone =>
  ((parseEnumField "city" cityValues pr.city).value?).bind fun city =>
  ((parseEnumField "propertyType" propertyTypeValues pr.propertyType).value?).bind fun propertyType =>
  (parseBhk pr.bhk).value?.bind fun bhk =>
  ((parseEnumField "purpose" purposeValues pr.purpose).value?).bind fun purpose =>
  ((parseBudgetField "budgetMin" pr.budgetMin).value?).bind fun budgetMin =>
  ((parseBudgetField "budgetMax" pr.budgetMax).value?).bind fun budgetMax =>
  ((parseEnumField "timeline" timelineValues pr.timeline).value?).bind fun timeline =>
  ((parseEnumField "source" sourceValues pr.source).value?).bind fun source =>
  (parseStatus pr.status).value?.bind fun status =>
  (parseNotes pr.notes).value?.bind fun notes =>
  (parseTags pr.tags).value?.bind fun tags =>
  some ⟨fullName, email, phone, city, propertyType, bhk, purpose, budgetMin,
    budgetMax, timeline, source, status, notes, tags⟩

/-- The per-field phase of buyerSchema: a value is produced exactly
when no field aborted, and all field issues are accumulated either
way. -/
def parseShape (pr : ProcessedRow) : PResult Lead :=
  match shapeValue? pr with
  | some lead => .valid lead (shapeIssues pr)
  | none => .invalid (shapeIssues pr)

/-- JavaScript truthiness of an optional string value as used in the
refinement callbacks (undefined and the empty string are falsy). -/
def optStrTruthy : Option String → Bool
  | none => false
  | some s => !(s = "")

/-- JavaScript truthiness of an optional number value as used in the
refinement callbacks (undefined and zero are falsy; NaN cannot reach a
refinement because it aborts the field parse). -/
def optIntTruthy : Option Int → Bool
  | none => false
  | some n => !(n = 0)

/-- The first refine callback of buyerSchema: BHK must be truthy for
Apartment and Villa property types. -/
def bhkRefineOk (d : Lead) : Bool :=
  !((d.propertyType = "Apartment" || d.propertyType = "Villa") && !optStrTruthy d.bhk)

def bhkRefineIssue : Issue := ⟨["bhk"], bhkRequiredMsg⟩

/-- The second refine callback of buyerSchema: when both budgets are
truthy, the maximum must not be below the minimum. -/
def budgetRefineOk (d : Lead) : Bool :=
  !(optIntTruthy d.budgetMin && optIntTruthy d.budgetMax &&
    decide (d.budgetMax.getD 0 < d.budgetMin.getD 0))

def budgetRefineIssue : Issue := ⟨["budgetMax"], budgetOrderMsg⟩

/-- zod .refine: when the inner parse aborted the refinement does not
run; otherwise the callback is evaluated on the inner value and a
failure appends one non-aborting issue. -/
def applyRefine (r : PResult Lead) (check : Lead → Bool) (issue : Issue) : PResult Lead :=
  match r with
  | .invalid is => .invalid is
  | .valid v is => if check v then .valid v is else .valid v (is ++ [issue])

/-- buyerSchema.safeParse on a processed record: the object shape
phase, then the BHK refinement, then the budget refinement. -/
def buyerSchemaSafeParse (pr : ProcessedRow) : PResult Lead :=
  applyRefine (applyRefine (parseShape pr) bhkRefineOk bhkRefineIssue)
    budgetRefineOk budgetRefineIssue

/-! ## src/utils/csv-validator.ts -/

/-- A raw CSV row: every field an optional string, keyed by the fixed
header set. -/
structure CSVRow where
  fullName : Option String := none
  email : Option String := none
  phone : Option String := none
  city : Option String := none
  propertyType : Option String := none
  bhk : Option String := none
  purpose : Option String := none
  budgetMin : Option String := none
  budgetMax : Option String := none
  timeline : Option String := none
  source : Option String := none
  notes : Option String := none
  tags : Option String := none
  status : Option String := none
  deriving Repr, DecidableEq

/-- JavaScript (x || undefined) after an optional trim: a missing or
blank value becomes undefined. -/
def trimOrUndefined : Option String → Option String
  | none => none
  | some s => if jsTrim s = "" then none else some (jsTrim s)

/-- The processedRow computation at the top of validateCSVRow:
trim the plain string fields; map email, bhk and notes to undefined
when blank; parse a truthy budget string with parseInt (keeping NaN);
split, trim and filter the tags string; default status to New. -/
def processRow (row : CSVRow) : ProcessedRow where
  fullName := row.fullName.map jsTrim
  email := trimOrUndefined row.email
  phone := row.phone.map jsTrim
  city := row.city.map jsTrim
  propertyType := row.propertyType.map jsTrim
  bhk := trimOrUndefined row.bhk
  purpose := row.purpose.map jsTrim
  budgetMin :=
    match row.budgetMin with
    | none => none
    | some s => if s = "" then none else some (jsParseInt s)
  budgetMax :=
    match row.budgetMax with
    | none => none
    | some s => if s = "" then none else some (jsParseInt s)
  timeline := row.timeline.map jsTrim
  source := row.source.map jsTrim
  notes := trimOrUndefined row.notes
  tags :=
    some (match row.tags with
      | none => []
      | some s =>
        if s = "" then []
        else ((jsSplit ',' s).map jsTrim).filter (fun t => !(t = "")))
  status :=
    some (match row.status with
      | none => "New"
      | some s => if jsTrim s = "" then "New" else jsTrim s)

/-- One entry of the error list returned by validateCSVRow. -/
structure RowError where
  row : Nat
  field : String
  message : String
  deriving Repr, DecidableEq

/-- The result of validateCSVRow. -/
structure RowValidation where
  isValid : Bool
  errors : List RowError
  deriving Repr, DecidableEq

/-- validateCSVRow: process the row, run buyerSchema.safeParse, and on
failure report every issue tagged with the given row number and the
dot-joined path.  (The catch branch of the source is unreachable: every
operation of the try block is total and safeParse does not throw.) -/
def validateCSVRow (row : CSVRow) (rowNumber : Nat) : RowValidation :=
  let result := buyerSchemaSafeParse (processRow row)
  { isValid := result.success,
    errors :=
      if result.success then []
      else result.issues.map (fun i => ⟨rowNumber, joinDot i.path, i.message⟩) }

/-- The result of validateCSVData. -/
structure CSVValidationResult where
  isValid : Bool
  errors : List RowError
  validRows : List CSVRow
  invalidRows : List CSVRow
  deriving Repr, DecidableEq

/-- The forEach loop of validateCSVData, with the 1-based row number of
the first remaining row as the accumulator. -/
def validateCSVDataAux : List CSVRow → Nat → List RowError × List CSVRow × List CSVRow
  | [], _ => ([], [], [])
  | r :: rs, n =>
    let v := validateCSVRow r n
    let rest := validateCSVDataAux rs (n + 1)
    if v.isValid then (rest.1, r :: rest.2.1, rest.2.2)
    else (v.errors ++ rest.1, rest.2.1, r :: rest.2.2)

/-- validateCSVData: validate every row with its 1-based row number,
partition the raw rows into validRows and invalidRows, accumulate the
errors of the invalid rows, and report overall validity as the absence
of errors. -/
def validateCSVData (csvData : List CSVRow) : CSVValidationResult :=
  let z := validateCSVDataAux csvData 1
  ⟨z.1.isEmpty, z.1, z.2.1, z.2.2⟩

/-- The list of rows paired with their row numbers counting from n. -/
def enumFrom (n : Nat) : List α → List (Nat × α)
  | [] => []
  | a :: as => (n, a) :: enumFrom (n + 1) as

/-! ## The CSV import module (src/unnamed/part_002) -/

/-- JavaScript (value === "" or null becomes undefined) applied by
transformCsvRow to the fields it does not specially transform; note
that transformCsvRow does not trim. -/
def emptyToNone : Option String → Option String
  | none => none
  | some s => if s = "" then none else some s

/-- transformCsvRow: tags are split, trimmed and filtered when truthy;
truthy budget strings are parsed with parseInt and NaN becomes
undefined; empty strings become undefined; nothing is trimmed and
status is left for the schema default. -/
def transformCsvRow (row : CSVRow) : ProcessedRow where
  fullName := emptyToNone row.fullName
  email := emptyToNone row.email
  phone := emptyToNone row.phone
  city := emptyToNone row.city
  propertyType := emptyToNone row.propertyType
  bhk := emptyToNone row.bhk
  purpose := emptyToNone row.purpose
  budgetMin :=
    match row.budgetMin with
    | none => none
    | some s =>
      if s = "" then none
      else match jsParseInt s with
        | none => none
        | some n => some (some n)
  budgetMax :=
    match row.budgetMax with
    | none => none
    | some s =>
      if s = "" then none
      else match jsParseInt s with
        | none => none
        | some n => some (some n)
  timeline := emptyToNone row.timeline
  source := emptyToNone row.source
  notes := emptyToNone row.notes
  tags :=
    match row.tags with
    | none => none
    | some s =>
      if s = "" then none
      else some (((jsSplit ',' s).map jsTrim).filter (fun t => 0 < t.data.length))
  status := emptyToNone row.status

/-- The row loop of parseAndValidateCSV: transform each row, parse it
with buyerSchema, and push the parsed Lead on success or the row number
(index plus two, accounting for the header line) with formatted error
strings on failure.  The accumulator is the row number of the first
remaining row. -/
def parseAndValidateRowsAux : List CSVRow → Nat → List Lead × List (Nat × List String)
  | [], _ => ([], [])
  | r :: rs, n =>
    let rest := parseAndValidateRowsAux rs (n + 1)
    match buyerSchemaSafeParse (transformCsvRow r) with
    | .valid v [] => (v :: rest.1, rest.2)
    | res => (rest.1, (n, res.issues.map (fun i => joinDot i.path ++ ": " ++ i.message)) :: rest.2)

/-- parseAndValidateCSV on already-tokenized rows (the Papa.parse file
handling is outside the modelled core): the first data row is row 2. -/
def parseAndValidateRows (rows : List CSVRow) : List Lead × List (Nat × List String) :=
  parseAndValidateRowsAux rows 2

/-- The value pushed by the success branch of the parseAndValidateCSV
loop: the parsed Lead when the schema parse fully succeeds. -/
def successLead : PResult Lead → Option Lead
  | .valid v [] => some v
  | _ => none

/-! ## General lemmas about the parse pipeline -/

@[simp] theorem issues_invalid (is : List Issue) :
    (PResult.invalid (α := α) is).issues = is := rfl

@[simp] theorem issues_valid (v : α) (is : List Issue) :
    (PResult.valid v is).issues = is := rfl

@[simp] theorem valueq_invalid (is : List Issue) :
    (PResult.invalid (α := α) is).value? = none := rfl

@[simp] theorem valueq_valid (v : α) (is : List Issue) :
    (PResult.valid v is).value? = some v := rfl

@[simp] theorem success_invalid (is : List Issue) :
    (PResult.invalid (α := α) is).success = false := rfl

@[simp] theorem success_valid (v : α) (is : List Issue) :
    (PResult.valid v is).success = is.isEmpty := by
  cases is <;> rfl

theorem parseShape_issues (pr : ProcessedRow) :
    (parseShape pr).issues = shapeIssues pr := by
  unfold parseShape
  split <;> rfl

theorem applyRefine_issues_mem (r : PResult Lead) (c : Lead → Bool) (i : Issue)
    (x : Issue) (hx : x ∈ r.issues) : x ∈ (applyRefine r c i).issues := by
  cases r with
  | invalid is => simpa [applyRefine] using hx
  | valid v is =>
    by_cases hc : c v = true
    · simpa [applyRefine, hc] using hx
    · simp only [applyRefine, hc, if_false, Bool.false_eq_true, issues_valid] at *
      exact List.mem_append_left _ hx

theorem mem_buyer_issues (pr : ProcessedRow) (x : Issue) (hx : x ∈ shapeIssues pr) :
    x ∈ (buyerSchemaSafeParse pr).issues := by
  unfold buyerSchemaSafeParse
  apply applyRefine_issues_mem
  apply applyRefine_issues_mem
  rw [parseShape_issues]
  exact hx

theorem success_false_of_mem (r : PResult Lead) (x : Issue) (hx : x ∈ r.issues) :
    r.success = false := by
  cases r with
  | invalid is => rfl
  | valid v is =>
    cases is with
    | nil => cases hx
    | cons a as => rfl

theorem validateCSVRow_isValid (row : CSVRow) (n : Nat) :
    (validateCSVRow row n).isValid = (buyerSchemaSafeParse (processRow row)).success := rfl

theorem validateCSVRow_error_mem (row : CSVRow) (n : Nat) (x : Issue)
    (hx : x ∈ (buyerSchemaSafeParse (processRow row)).issues) :
    (⟨n, joinDot x.path, x.message⟩ : RowError) ∈ (validateCSVRow row n).errors := by
  have h := success_false_of_mem _ x hx
  simp only [validateCSVRow, h, Bool.false_eq_true, if_false, List.mem_map]
  exact ⟨x, hx, rfl⟩

theorem parseFullName_isSome (v : Option String) (h : (parseFullName v).issues = []) :
    (parseFullName v).value?.isSome := by
  cases v with
  | none => simp [parseFullName] at h
  | some s => simp [parseFullName]

theorem parseEmail_isSome (v : Option String) (h : (parseEmail v).issues = []) :
    (parseEmail v).value?.isSome := by
  cases v with
  | none => simp [parseEmail]
  | some s =>
    by_cases h1 : isZodEmail s
    · simp [parseEmail, h1]
    · by_cases h2 : s = ""
      · simp [parseEmail, h1, h2]
      · simp [parseEmail, h1, h2] at h

theorem parsePhone_isSome (v : Option String) (h : (parsePhone v).issues = []) :
    (parsePhone v).value?.isSome := by
  cases v with
  | none => simp [parsePhone] at h
  | some s => simp [parsePhone]

theorem parseEnumField_isSome (f : String) (vs : List String) (v : Option String)
    (h : (parseEnumField f vs v).issues = []) : (parseEnumField f vs v).value?.isSome := by
  cases v with
  | none => simp [parseEnumField] at h
  | some s =>
    by_cases hm : s ∈ vs
    · simp [parseEnumField, hm]
    · simp [parseEnumField, hm] at h

theorem parseBhk_isSome (v : Option String) (h : (parseBhk v).issues = []) :
    (parseBhk v).value?.isSome := by
  cases v with
  | none => simp [parseBhk]
  | some s =>
    by_cases hm : s ∈ bhkValues
    · simp [parseBhk, hm]
    · simp [parseBhk, hm] at h

theorem parseBudgetField_isSome (f : String) (v : Option (Option Int))
    (h : (parseBudgetField f v).issues = []) : (parseBudgetField f v).value?.isSome := by
  match v with
  | none => simp [parseBudgetField]
  | some none => simp [parseBudgetField] at h
  | some (some n) => simp [parseBudgetField]

theorem parseStatus_isSome (v : Option String) (h : (parseStatus v).issues = []) :
    (parseStatus v).value?.isSome := by
  cases v with
  | none => simp [parseStatus]
  | some s =>
    by_cases hm : s ∈ statusValues
    · simp [parseStatus, hm]
    · simp [parseStatus, hm] at h

theorem parseNotes_isSome (v : Option String) (h : (parseNotes v).issues = []) :
    (parseNotes v).value?.isSome := by
  cases v with
  | none => simp [parseNotes]
  | some s => simp [parseNotes]

theorem parseTags_isSome (v : Option (List String)) (h : (parseTags v).issues = []) :
    (parseTags v).value?.isSome := by
  cases v <;> simp [parseTags]

theorem shapeValue_isSome (pr : ProcessedRow) (h : shapeIssues pr = []) :
    (shapeValue? pr).isSome := by
  unfold shapeIssues at h
  simp only [List.append_eq_nil, and_assoc] at h
  obtain ⟨h1, h2, h3, h4, h5, h6, h7, h8, h9, h10, h11, h12, h13, h14⟩ := h
  obtain ⟨v1, hv1⟩ := Option.isSome_iff_exists.mp (parseFullName_isSome _ h1)
  obtain ⟨v2, hv2⟩ := Option.isSome_iff_exists.mp (parseEmail_isSome _ h2)
  obtain ⟨v3, hv3⟩ := Option.isSome_iff_exists.mp (parsePhone_isSome _ h3)
  obtain ⟨v4, hv4⟩ := Option.isSome_iff_exists.mp (parseEnumField_isSome _ _ _ h4)
  obtain ⟨v5, hv5⟩ := Option.isSome_iff_exists.mp (parseEnumField_isSome _ _ _ h5)
  obtain ⟨v6, hv6⟩ := Option.isSome_iff_exists.mp (parseBhk_isSome _ h6)
  obtain ⟨v7, hv7⟩ := Option.isSome_iff_exists.mp (parseEnumField_isSome _ _ _ h7)
  obtain ⟨v8, hv8⟩ := Option.isSome_iff_exists.mp (parseBudgetField_isSome _ _ h8)
  obtain ⟨v9, hv9⟩ := Option.isSome_iff_exists.mp (parseBudgetField_isSome _ _ h9)
  obtain ⟨v10, hv10⟩ := Option.isSome_iff_exists.mp (parseEnumField_isSome _ _ _ h10)
  obtain ⟨v11, hv11⟩ := Option.isSome_iff_exists.mp (parseEnumField_isSome _ _ _ h11)
  obtain ⟨v12, hv12⟩ := Option.isSome_iff_exists.mp (parseStatus_isSome _ h12)
  obtain ⟨v13, hv13⟩ := Option.isSome_iff_exists.mp (parseNotes_isSome _ h13)
  obtain ⟨v14, hv14⟩ := Option.isSome_iff_exists.mp (parseTags_isSome _ h14)
  simp [shapeValue?, hv1, hv2, hv3, hv4, hv5, hv6, hv7, hv8, hv9, hv10, hv11, hv12,
    hv13, hv14, Option.bind]

theorem parseShape_invalid_ne (pr : ProcessedRow) (is : List Issue)
    (h : parseShape pr = .invalid is) : is ≠ [] := by
  intro hnil
  subst hnil
  unfold parseShape at h
  split at h
  · exact absurd h (by simp)
  · next heq =>
      injection h with h2
      have hs := shapeValue_isSome pr h2
      rw [heq] at hs
      simp at hs

theorem applyRefine_invalid (r : PResult Lead) (c : Lead → Bool) (i : Issue)
    (is : List Issue) : applyRefine r c i = .invalid is ↔ r = .invalid is := by
  cases r with
  | invalid js => simp [applyRefine]
  | valid v js =>
    constructor
    · intro h
      by_cases hc : c v = true <;> simp [applyRefine, hc] at h
    · intro h
      exact absurd h (by simp)

theorem applyRefine_issues_cases (r : PResult Lead) (c : Lead → Bool) (i : Issue)
    (x : Issue) (hx : x ∈ (applyRefine r c i).issues) : x ∈ r.issues ∨ x = i := by
  cases r with
  | invalid is => exact Or.inl (by simpa [applyRefine] using hx)
  | valid v is =>
    by_cases hc : c v = true
    · exact Or.inl (by simpa [applyRefine, hc] using hx)
    · simp only [applyRefine, hc, if_false, Bool.false_eq_true, issues_valid,
        List.mem_append, List.mem_singleton] at hx
      simpa using hx

theorem buyer_issues_cases (pr : ProcessedRow) (x : Issue)
    (hx : x ∈ (buyerSchemaSafeParse pr).issues) :
    x ∈ shapeIssues pr ∨ x = bhkRefineIssue ∨ x = budgetRefineIssue := by
  unfold buyerSchemaSafeParse at hx
  rcases applyRefine_issues_cases _ _ _ _ hx with h1 | h1
  · rcases applyRefine_issues_cases _ _ _ _ h1 with h2 | h2
    · rw [parseShape_issues] at h2
      exact Or.inl h2
    · exact Or.inr (Or.inl h2)
  · exact Or.inr (Or.inr h1)

theorem validateCSVRow_dichotomy (row : CSVRow) (n : Nat) :
    ((validateCSVRow row n).isValid = true ∧ (validateCSVRow row n).errors = []) ∨
    ((validateCSVRow row n).isValid = false ∧ (validateCSVRow row n).errors ≠ []) := by
  cases hres : buyerSchemaSafeParse (processRow row) with
  | invalid is =>
    have hne : is ≠ [] := by
      apply parseShape_invalid_ne (processRow row)
      have h2 := hres
      unfold buyerSchemaSafeParse at h2
      rw [applyRefine_invalid, applyRefine_invalid] at h2
      exact h2
    right
    constructor
    · simp [validateCSVRow, hres]
    · simpa [validateCSVRow, hres] using hne
  | valid v is =>
    cases is with
    | nil => left; simp [validateCSVRow, hres]
    | cons a as => right; simp [validateCSVRow, hres]

theorem enumFrom_length (n : Nat) (l : List α) : (enumFrom n l).length = l.length := by
  induction l generalizing n with
  | nil => rfl
  | cons a as ih => simp [enumFrom, ih]

theorem enumFrom_get_mem (l : List α) (n i : Nat) (h : i < l.length) :
    (n + i, l.get ⟨i, h⟩) ∈ enumFrom n l := by
  induction l generalizing n i with
  | nil => exact absurd h (by simp)
  | cons a as ih =>
    cases i with
    | zero => simp [enumFrom]
    | succ j =>
      have h2 : j < as.length := Nat.lt_of_succ_lt_succ h
      have hmem := ih (n + 1) j h2
      have harr : n + (j + 1) = (n + 1) + j := by omega
      simp only [enumFrom, List.mem_cons]
      right
      rw [harr]
      simpa using hmem

theorem validateCSVDataAux_spec (rows : List CSVRow) : ∀ n : Nat,
    validateCSVDataAux rows n =
      (((enumFrom n rows).map (fun p =>
          if (validateCSVRow p.2 p.1).isValid then [] else (validateCSVRow p.2 p.1).errors)).flatten,
       ((enumFrom n rows).filter (fun p => (validateCSVRow p.2 p.1).isValid)).map Prod.snd,
       ((enumFrom n rows).filter (fun p => !(validateCSVRow p.2 p.1).isValid)).map Prod.snd) := by
  induction rows with
  | nil => intro n; rfl
  | cons r rs ih =>
    intro n
    cases hv : (validateCSVRow r n).isValid <;>
      simp [validateCSVDataAux, enumFrom, ih, hv, List.filter_cons]

theorem validateCSVData_validRows (data : List CSVRow) :
    (validateCSVData data).validRows =
      ((enumFrom 1 data).filter (fun p => (validateCSVRow p.2 p.1).isValid)).map Prod.snd := by
  simp [validateCSVData, validateCSVDataAux_spec]

theorem validateCSVData_invalidRows (data : List CSVRow) :
    (validateCSVData data).invalidRows =
      ((enumFrom 1 data).filter (fun p => !(validateCSVRow p.2 p.1).isValid)).map Prod.snd := by
  simp [validateCSVData, validateCSVDataAux_spec]

theorem validateCSVData_errors (data : List CSVRow) :
    (validateCSVData data).errors =
      ((enumFrom 1 data).map (fun p =>
        if (validateCSVRow p.2 p.1).isValid then [] else (validateCSVRow p.2 p.1).errors)).flatten := by
  simp [validateCSVData, validateCSVDataAux_spec]

theorem length_filter_partition (l : List α) (p : α → Bool) :
    (l.filter p).length + (l.filter (fun a => !(p a))).length = l.length := by
  induction l with
  | nil => rfl
  | cons a as ih => cases h : p a <;> simp [List.filter_cons, h] <;> omega

theorem parseAndValidateRowsAux_fst (rows : List CSVRow) : ∀ n : Nat,
    (parseAndValidateRowsAux rows n).1 =
      rows.filterMap (fun r => successLead (buyerSchemaSafeParse (transformCsvRow r))) := by
  induction rows with
  | nil => intro n; rfl
  | cons r rs ih =>
    intro n
    cases hres : buyerSchemaSafeParse (transformCsvRow r) with
    | invalid is =>
      simp [parseAndValidateRowsAux, hres, successLead, ih, List.filterMap_cons]
    | valid v is =>
      cases is with
      | nil => simp [parseAndValidateRowsAux, hres, successLead, ih, List.filterMap_cons]
      | cons a as =>
        simp [parseAndValidateRowsAux, hres, successLead, ih, List.filterMap_cons]

theorem shapeIssues_nil_parts (pr : ProcessedRow) (h : shapeIssues pr = []) :
    (parseFullName pr.fullName).issues = [] ∧
    (parseEmail pr.email).issues = [] ∧
    (parsePhone pr.phone).issues = [] ∧
    (parseEnumField "city" cityValues pr.city).issues = [] ∧
    (parseEnumField "propertyType" propertyTypeValues pr.propertyType).issues = [] ∧
    (parseBhk pr.bhk).issues = [] ∧
    (parseEnumField "purpose" purposeValues pr.purpose).issues = [] ∧
    (parseBudgetField "budgetMin" pr.budgetMin).issues = [] ∧
    (parseBudgetField "budgetMax" pr.budgetMax).issues = [] ∧
    (parseEnumField "timeline" timelineValues pr.timeline).issues = [] ∧
    (parseEnumField "source" sourceValues pr.source).issues = [] ∧
    (parseStatus pr.status).issues = [] ∧
    (parseNotes pr.notes).issues = [] ∧
    (parseTags pr.tags).issues = [] := by
  unfold shapeIssues at h
  simpa [List.append_eq_nil, and_assoc] using h

theorem shapeValue_fields (pr : ProcessedRow) (lead : Lead)
    (h : shapeValue? pr = some lead) :
    (parseBudgetField "budgetMin" pr.budgetMin).value? = some lead.budgetMin ∧
    (parseBudgetField "budgetMax" pr.budgetMax).value? = some lead.budgetMax := by
  unfold shapeValue? at h
  obtain ⟨v1, hv1, h⟩ := Option.bind_eq_some.mp h
  obtain ⟨v2, hv2, h⟩ := Option.bind_eq_some.mp h
  obtain ⟨v3, hv3, h⟩ := Option.bind_eq_some.mp h
  obtain ⟨v4, hv4, h⟩ := Option.bind_eq_some.mp h
  obtain ⟨v5, hv5, h⟩ := Option.bind_eq_some.mp h
  obtain ⟨v6, hv6, h⟩ := Option.bind_eq_some.mp h
  obtain ⟨v7, hv7, h⟩ := Option.bind_eq_some.mp h
  obtain ⟨v8, hv8, h⟩ := Option.bind_eq_some.mp h
  obtain ⟨v9, hv9, h⟩ := Option.bind_eq_some.mp h
  obtain ⟨v10, hv10, h⟩ := Option.bind_eq_some.mp h
  obtain ⟨v11, hv11, h⟩ := Option.bind_eq_some.mp h
  obtain ⟨v12, hv12, h⟩ := Option.bind_eq_some.mp h
  obtain ⟨v13, hv13, h⟩ := Option.bind_eq_some.mp h
  obtain ⟨v14, hv14, h⟩ := Option.bind_eq_some.mp h
  injection h with hfin
  subst hfin
  exact ⟨hv8, hv9⟩

theorem parseBudgetField_pos (f : String) (v : Option (Option Int)) (m : Int)
    (hi : (parseBudgetField f v).issues = [])
    (hv : (parseBudgetField f v).value? = some (some m)) : 0 < m := by
  match v with
  | none => simp [parseBudgetField] at hv
  | some none => simp [parseBudgetField] at hv
  | some (some n) =>
    simp only [parseBudgetField, valueq_valid, Option.some.injEq] at hv
    by_cases hn : n ≤ 0
    · simp [parseBudgetField, hn] at hi
    · have : n = m := by simpa using hv
      omega

theorem parseShape_valid_inv (pr : ProcessedRow) (lead : Lead) (is : List Issue)
    (h : parseShape pr = .valid lead is) :
    shapeValue? pr = some lead ∧ shapeIssues pr = is := by
  unfold parseShape at h
  split at h
  · next heq =>
      injection h with h1 h2
      subst h1
      exact ⟨heq, h2⟩
  · exact absurd h (by simp)

theorem parseShape_valid_budget_pos (pr : ProcessedRow) (lead : Lead)
    (h : parseShape pr = .valid lead []) :
    (∀ m : Int, lead.budgetMin = some m → 0 < m) ∧
    (∀ m : Int, lead.budgetMax = some m → 0 < m) := by
  obtain ⟨hval, hiss⟩ := parseShape_valid_inv pr lead [] h
  obtain ⟨hbmin, hbmax⟩ := shapeValue_fields pr lead hval
  have hparts := shapeIssues_nil_parts pr hiss
  constructor
  · intro m hm
    rw [hm] at hbmin
    exact parseBudgetField_pos _ _ _ hparts.2.2.2.2.2.2.2.1 hbmin
  · intro m hm
    rw [hm] at hbmax
    exact parseBudgetField_pos _ _ _ hparts.2.2.2.2.2.2.2.2.1 hbmax

theorem buyer_valid_case (pr : ProcessedRow) (lead : Lead) (is : List Issue)
    (h : parseShape pr = .valid lead is) :
    buyerSchemaSafeParse pr = .valid lead
      ((is ++ (if bhkRefineOk lead then [] else [bhkRefineIssue])) ++
        (if budgetRefineOk lead then [] else [budgetRefineIssue])) := by
  unfold buyerSchemaSafeParse
  rw [h]
  by_cases h1 : bhkRefineOk lead <;> by_cases h2 : budgetRefineOk lead <;>
    simp [applyRefine, h1, h2]

theorem buyer_invalid_case (pr : ProcessedRow) (is : List Issue)
    (h : parseShape pr = .invalid is) : buyerSchemaSafeParse pr = .invalid is := by
  unfold buyerSchemaSafeParse
  rw [h]
  simp [applyRefine]

theorem parseFullName_path (v : Option String) (x : Issue)
    (hx : x ∈ (parseFullName v).issues) : x.path = ["fullName"] := by
  cases v with
  | none =>
    simp only [parseFullName, issues_invalid, List.mem_singleton] at hx
    subst hx; rfl
  | some s =>
    simp only [parseFullName, issues_valid, List.mem_append] at hx
    rcases hx with hx | hx <;> split at hx <;> simp_all

theorem parseEmail_path (v : Option String) (x : Issue)
    (hx : x ∈ (parseEmail v).issues) : x.path = ["email"] := by
  cases v with
  | none => simp [parseEmail] at hx
  | some s =>
    by_cases h1 : isZodEmail s
    · simp [parseEmail, h1] at hx
    · by_cases h2 : s = ""
      · simp [parseEmail, h1, h2] at hx
      · simp only [parseEmail, h1, h2, if_false, Bool.false_eq_true, issues_invalid,
          List.mem_singleton] at hx
        subst hx; rfl

theorem parsePhone_path (v : Option String) (x : Issue)
    (hx : x ∈ (parsePhone v).issues) : x.path = ["phone"] := by
  cases v with
  | none =>
    simp only [parsePhone, issues_invalid, List.mem_singleton] at hx
    subst hx; rfl
  | some s =>
    simp only [parsePhone, issues_valid, List.mem_append] at hx
    rcases hx with (hx | hx) | hx <;> split at hx <;> simp_all

theorem parseEnumField_path (f : String) (vs : List String) (v : Option String) (x : Issue)
    (hx : x ∈ (parseEnumField f vs v).issues) : x.path = [f] := by
  cases v with
  | none =>
    simp only [parseEnumField, issues_invalid, List.mem_singleton] at hx
    subst hx; rfl
  | some s =>
    by_cases hm : s ∈ vs
    · simp [parseEnumField, hm] at hx
    · simp only [parseEnumField, hm, if_false, issues_invalid, List.mem_singleton] at hx
      subst hx; rfl

theorem parseBhk_path (v : Option String) (x : Issue)
    (hx : x ∈ (parseBhk v).issues) : x.path = ["bhk"] := by
  cases v with
  | none => simp [parseBhk] at hx
  | some s =>
    by_cases hm : s ∈ bhkValues
    · simp [parseBhk, hm] at hx
    · simp only [parseBhk, hm, if_false, issues_invalid, List.mem_singleton] at hx
      subst hx; rfl

theorem parseBudgetField_path (f : String) (v : Option (Option Int)) (x : Issue)
    (hx : x ∈ (parseBudgetField f v).issues) : x.path = [f] := by
  match v with
  | none => simp [parseBudgetField] at hx
  | some none =>
    simp only [parseBudgetField, issues_invalid, List.mem_singleton] at hx
    subst hx; rfl
  | some (some n) =>
    simp only [parseBudgetField, issues_valid] at hx
    split at hx <;> simp_all

theorem parseStatus_path (v : Option String) (x : Issue)
    (hx : x ∈ (parseStatus v).issues) : x.path = ["status"] := by
  cases v with
  | none => simp [parseStatus] at hx
  | some s =>
    by_cases hm : s ∈ statusValues
    · simp [parseStatus, hm] at hx
    · simp only [parseStatus, hm, if_false, issues_invalid, List.mem_singleton] at hx
      subst hx; rfl

theorem parseNotes_path (v : Option String) (x : Issue)
    (hx : x ∈ (parseNotes v).issues) : x.path = ["notes"] := by
  cases v with
  | none => simp [parseNotes] at hx
  | some s =>
    simp only [parseNotes, issues_valid] at hx
    split at hx <;> simp_all

theorem parseTags_empty (v : Option (List String)) : (parseTags v).issues = [] := by
  cases v <;> rfl

theorem shapeIssues_mem_cases (pr : ProcessedRow) (x : Issue) (hx : x ∈ shapeIssues pr) :
    x ∈ (parseFullName pr.fullName).issues ∨
    x ∈ (parseEmail pr.email).issues ∨
    x ∈ (parsePhone pr.phone).issues ∨
    x ∈ (parseEnumField "city" cityValues pr.city).issues ∨
    x ∈ (parseEnumField "propertyType" propertyTypeValues pr.propertyType).issues ∨
    x ∈ (parseBhk pr.bhk).issues ∨
    x ∈ (parseEnumField "purpose" purposeValues pr.purpose).issues ∨
    x ∈ (parseBudgetField "budgetMin" pr.budgetMin).issues ∨
    x ∈ (parseBudgetField "budgetMax" pr.budgetMax).issues ∨
    x ∈ (parseEnumField "timeline" timelineValues pr.timeline).issues ∨
    x ∈ (parseEnumField "source" sourceValues pr.source).issues ∨
    x ∈ (parseStatus pr.status).issues ∨
    x ∈ (parseNotes pr.notes).issues ∨
    x ∈ (parseTags pr.tags).issues := by
  unfold shapeIssues at hx
  simpa [List.mem_append, or_assoc] using hx

theorem no_budgetMin_error (row : CSVRow) (n : Nat)
    (hb : (parseBudgetField "budgetMin" (processRow row).budgetMin).issues = [])
    (e : RowError) (he : e ∈ (validateCSVRow row n).errors) : e.field ≠ "budgetMin" := by
  simp only [validateCSVRow] at he
  split at he
  · exact absurd he (by simp)
  · simp only [List.mem_map] at he
    obtain ⟨x, hx, hxe⟩ := he
    subst hxe
    show joinDot x.path ≠ "budgetMin"
    rcases buyer_issues_cases _ _ hx with hs | hr | hr
    · rcases shapeIssues_mem_cases _ _ hs with h | h | h | h | h | h | h | h | h | h | h | h | h | h
      · rw [parseFullName_path _ _ h]; decide
      · rw [parseEmail_path _ _ h]; decide
      · rw [parsePhone_path _ _ h]; decide
      · rw [parseEnumField_path _ _ _ _ h]; decide
      · rw [parseEnumField_path _ _ _ _ h]; decide
      · rw [parseBhk_path _ _ h]; decide
      · rw [parseEnumField_path _ _ _ _ h]; decide
      · rw [hb] at h; exact absurd h (by simp)
      · rw [parseBudgetField_path _ _ _ h]; decide
      · rw [parseEnumField_path _ _ _ _ h]; decide
      · rw [parseEnumField_path _ _ _ _ h]; decide
      · rw [parseStatus_path _ _ h]; decide
      · rw [parseNotes_path _ _ h]; decide
      · rw [parseTags_empty] at h; exact absurd h (by simp)
    · subst hr; decide
    · subst hr; decide

theorem validateCSVRow_errors_row (row : CSVRow) (n : Nat) (e : RowError)
    (he : e ∈ (validateCSVRow row n).errors) : e.row = n := by
  simp only [validateCSVRow] at he
  split at he
  · exact absurd he (by simp)
  · simp only [List.mem_map] at he
    obtain ⟨x, hx, hxe⟩ := he
    subst hxe
    rfl

theorem budgetMin_nonpos_spec (row : CSVRow) (n : Nat) (m : Int)
    (hpr : (processRow row).budgetMin = some (some m)) (hm : m ≤ 0) :
    (validateCSVRow row n).isValid = false ∧
    (⟨n, "budgetMin", positiveNumberMsg⟩ : RowError) ∈ (validateCSVRow row n).errors := by
  have hissue : (⟨["budgetMin"], positiveNumberMsg⟩ : Issue) ∈ shapeIssues (processRow row) := by
    unfold shapeIssues
    rw [hpr]
    simp [parseBudgetField, hm, List.mem_append]
  have hmem := mem_buyer_issues _ _ hissue
  refine ⟨?_, ?_⟩
  · rw [validateCSVRow_isValid]
    exact success_false_of_mem _ _ hmem
  · have := validateCSVRow_error_mem row n _ hmem
    simpa [joinDot] using this

theorem budgetMax_nonpos_spec (row : CSVRow) (n : Nat) (m : Int)
    (hpr : (processRow row).budgetMax = some (some m)) (hm : m ≤ 0) :
    (validateCSVRow row n).isValid = false ∧
    (⟨n, "budgetMax", positiveNumberMsg⟩ : RowError) ∈ (validateCSVRow row n).errors := by
  have hissue : (⟨["budgetMax"], positiveNumberMsg⟩ : Issue) ∈ shapeIssues (processRow row) := by
    unfold shapeIssues
    rw [hpr]
    simp [parseBudgetField, hm, List.mem_append]
  have hmem := mem_buyer_issues _ _ hissue
  refine ⟨?_, ?_⟩
  · rw [validateCSVRow_isValid]
    exact success_false_of_mem _ _ hmem
  · have := validateCSVRow_error_mem row n _ hmem
    simpa [joinDot] using this

/-! ## Concrete rows used by the witnesses and counterexamples -/

/-- A fully valid baseline row (Office, so no BHK requirement). -/
def baseRow : CSVRow where
  fullName := some "John Doe"
  phone := some "1234567890"
  city := some "Chandigarh"
  propertyType := some "Office"
  purpose := some "Buy"
  timeline := some "0-3m"
  source := some "Website"

/-- The Lead produced by validating baseRow. -/
def officeLead : Lead :=
  ⟨"John Doe", none, "1234567890", "Chandigarh", "Office", none, "Buy", none, none,
    "0-3m", "Website", "New", none, []⟩

def c1Row : CSVRow := { baseRow with city := some "InvalidCity", propertyType := some "Apartment" }

def w1Row : CSVRow := { baseRow with propertyType := some "Apartment" }

/-- The Lead produced by the field phase of w1Row. -/
def w1Lead : Lead :=
  ⟨"John Doe", none, "1234567890", "Chandigarh", "Apartment", none, "Buy", none, none,
    "0-3m", "Website", "New", none, []⟩

def c2Row : CSVRow := { baseRow with fullName := some " John Doe " }

def c3Row : CSVRow := { baseRow with budgetMin := some "abc" }

def badPhoneRow : CSVRow := { baseRow with phone := none }

def c6Row : CSVRow := { baseRow with propertyType := some "Villa" }

/-- The Lead produced by the field phase of c6Row. -/
def c6Lead : Lead :=
  ⟨"John Doe", none, "1234567890", "Chandigarh", "Villa", none, "Buy", none, none,
    "0-3m", "Website", "New", none, []⟩

def c7Row : CSVRow := { baseRow with budgetMin := some "2000000", budgetMax := some "1000000" }

/-- The Lead produced by the field phase of c7Row. -/
def c7Lead : Lead :=
  ⟨"John Doe", none, "1234567890", "Chandigarh", "Office", none, "Buy",
    some 2000000, some 1000000, "0-3m", "Website", "New", none, []⟩

def c7bRow : CSVRow := { baseRow with budgetMin := some "1000000" }

/-- The Lead produced by the field phase of c7bRow. -/
def c7bLead : Lead :=
  ⟨"John Doe", none, "1234567890", "Chandigarh", "Office", none, "Buy",
    some 1000000, none, "0-3m", "Website", "New", none, []⟩

def c8Row : CSVRow := { baseRow with budgetMin := some "0" }

def c8bRow : CSVRow := { baseRow with budgetMax := some "-5" }

def c9Row : CSVRow := { baseRow with tags := some "urgent, family ,," }

def c9bRow : CSVRow := { baseRow with tags := none }

def c10Row : CSVRow := { baseRow with budgetMin := some "0.5" }

def c10wRow : CSVRow := { baseRow with budgetMin := some "1000abc" }

/-! ## The claims -/

/-- C1, counterexample: for the record with city "InvalidCity",
propertyType "Apartment" and bhk absent, the error list of
validateCSVRow contains an error tagged city but NO error tagged bhk —
the invalid enum value aborts the object parse and the cross-field BHK
refinement never runs, contrary to the claim that both errors are
reported simultaneously. -/
theorem c1_counterexample :
    (∃ e ∈ (validateCSVRow c1Row 1).errors, e.field = "city") ∧
    ¬∃ e ∈ (validateCSVRow c1Row 1).errors, e.field = "bhk" := by
  decide

/-- C1, amended: the two cross-field checks (BHK-required and
budget-ordering) are evaluated and reported whenever the per-field
phase produced a value — in particular alongside any length or format
field errors; but when some field aborted (missing required field,
enum value outside the closed set, NaN budget) the refinements are
skipped and the returned errors are exactly the field errors. -/
theorem c1_amended (row : CSVRow) (n : Nat) :
    (∀ lead issues, parseShape (processRow row) = .valid lead issues →
      ((bhkRefineOk lead = false →
        (⟨n, "bhk", bhkRequiredMsg⟩ : RowError) ∈ (validateCSVRow row n).errors ∧
        (validateCSVRow row n).isValid = false) ∧
       (budgetRefineOk lead = false →
        (⟨n, "budgetMax", budgetOrderMsg⟩ : RowError) ∈ (validateCSVRow row n).errors ∧
        (validateCSVRow row n).isValid = false))) ∧
    (∀ issues, parseShape (processRow row) = .invalid issues →
      (validateCSVRow row n).errors =
        issues.map (fun i => ⟨n, joinDot i.path, i.message⟩)) := by
  constructor
  · intro lead issues hval
    have hbuy := buyer_valid_case _ _ _ hval
    constructor
    · intro hbhk
      have hmem : bhkRefineIssue ∈ (buyerSchemaSafeParse (processRow row)).issues := by
        rw [hbuy]
        simp [hbhk]
      constructor
      · have := validateCSVRow_error_mem row n _ hmem
        simpa [bhkRefineIssue, joinDot] using this
      · rw [validateCSVRow_isValid]
        exact success_false_of_mem _ _ hmem
    · intro hbud
      have hmem : budgetRefineIssue ∈ (buyerSchemaSafeParse (processRow row)).issues := by
        rw [hbuy]
        simp [hbud]
      constructor
      · have := validateCSVRow_error_mem row n _ hmem
        simpa [budgetRefineIssue, joinDot] using this
      · rw [validateCSVRow_isValid]
        exact success_false_of_mem _ _ hmem
  · intro issues hinv
    have hbuy := buyer_invalid_case _ _ hinv
    simp [validateCSVRow, hbuy]

/-- C1, witness: a record whose field phase is clean, with Apartment and
no BHK, receives the BHK refinement error. -/
theorem c1_witness :
    parseShape (processRow w1Row) = .valid w1Lead [] ∧ bhkRefineOk w1Lead = false ∧
    (⟨1, "bhk", bhkRequiredMsg⟩ : RowError) ∈ (validateCSVRow w1Row 1).errors := by
  refine ⟨by decide, by decide, ?_⟩
  exact ((((c1_amended w1Row 1).1 w1Lead [] (by decide)).1 (by decide)).1)

/-- C2, counterexample: a batch whose single row has an untrimmed
fullName is accepted, and validRows returns the raw row with the
untrimmed string, while the Validator normalized Lead has the trimmed
name — the accepted output is the raw input row, not the Lead. -/
theorem c2_counterexample :
    (validateCSVData [c2Row]).validRows = [c2Row] ∧
    c2Row.fullName = some " John Doe " ∧
    ((buyerSchemaSafeParse (processRow c2Row)).value?.map Lead.fullName) = some "John Doe" ∧
    " John Doe " ≠ "John Doe" := by
  decide

/-- C2, amended: validateCSVData returns, in input order, the raw rows
that validated (the normalized Lead is discarded); only the
parseAndValidateCSV path pushes the parsed Lead values of the schema
as its accepted items. -/
theorem c2_amended (rows : List CSVRow) :
    (validateCSVData rows).validRows =
      ((enumFrom 1 rows).filter (fun p => (validateCSVRow p.2 p.1).isValid)).map Prod.snd ∧
    (parseAndValidateRows rows).1 =
      rows.filterMap (fun r => successLead (buyerSchemaSafeParse (transformCsvRow r))) :=
  ⟨validateCSVData_validRows rows, parseAndValidateRowsAux_fst rows 2⟩

/-- C3, counterexample: for an otherwise-valid row with budgetMin
"abc", validateCSVRow does NOT treat the budget as absent: it reports
a budgetMin error (NaN reaches the schema) and the row is invalid,
contrary to the claim. -/
theorem c3_counterexample :
    (validateCSVRow c3Row 1).isValid = false ∧
    (∃ e ∈ (validateCSVRow c3Row 1).errors, e.field = "budgetMin") := by
  decide

/-- C3, amended: in validateCSVRow a present non-empty budget string
whose parseInt is NaN yields a budgetMin field error and an invalid
row; the treat-as-absent leniency holds only in the transformCsvRow
path of the CSV import module, where NaN budgets and absent budgets
both become undefined. -/
theorem c3_amended (row : CSVRow) (n : Nat) (s : String) :
    (row.budgetMin = some s → s ≠ "" → jsParseInt s = none →
      (validateCSVRow row n).isValid = false ∧
      (⟨n, "budgetMin", nanNumberMsg⟩ : RowError) ∈ (validateCSVRow row n).errors) ∧
    (row.budgetMin = some s → jsParseInt s = none → (transformCsvRow row).budgetMin = none) ∧
    (row.budgetMin = none → (transformCsvRow row).budgetMin = none) := by
  refine ⟨?_, ?_, ?_⟩
  · intro hs hne hparse
    have hpr : (processRow row).budgetMin = some none := by
      simp [processRow, hs, hne, hparse]
    have hissue : (⟨["budgetMin"], nanNumberMsg⟩ : Issue) ∈ shapeIssues (processRow row) := by
      unfold shapeIssues
      rw [hpr]
      simp [parseBudgetField, List.mem_append]
    have hmem := mem_buyer_issues _ _ hissue
    refine ⟨?_, ?_⟩
    · rw [validateCSVRow_isValid]
      exact success_false_of_mem _ _ hmem
    · have := validateCSVRow_error_mem row n _ hmem
      simpa [joinDot] using this
  · intro hs hparse
    by_cases hse : s = "" <;> simp [transformCsvRow, hs, hse, hparse]
  · intro hs
    simp [transformCsvRow, hs]

/-- C3, witness: the row with budgetMin "abc" exercises the amended
claim at a concrete input. -/
theorem c3_witness :
    ((validateCSVRow c3Row 1).isValid = false ∧
      (⟨1, "budgetMin", nanNumberMsg⟩ : RowError) ∈ (validateCSVRow c3Row 1).errors) ∧
    (transformCsvRow c3Row).budgetMin = none := by
  refine ⟨?_, ?_⟩
  · exact (c3_amended c3Row 1 "abc").1 rfl (by decide) (by decide)
  · exact (c3_amended c3Row 1 "abc").2.1 rfl (by decide)

/-- C4: validateCSVData validates the row of 0-based index i with row
number i+1, partitions the raw rows into validRows and invalidRows
preserving input order, accumulates exactly the errors of the invalid
rows, tags every emitted error with the row number of the row that
produced it, maps the empty batch to the empty successful outcome, and
never aborts early (every row of the batch appears in exactly one of
the two output sequences). -/
theorem c4_batch (data : List CSVRow) :
    (validateCSVData data).validRows =
      ((enumFrom 1 data).filter (fun p => (validateCSVRow p.2 p.1).isValid)).map Prod.snd ∧
    (validateCSVData data).invalidRows =
      ((enumFrom 1 data).filter (fun p => !(validateCSVRow p.2 p.1).isValid)).map Prod.snd ∧
    (validateCSVData data).errors =
      ((enumFrom 1 data).map (fun p =>
        if (validateCSVRow p.2 p.1).isValid then [] else (validateCSVRow p.2 p.1).errors)).flatten ∧
    (validateCSVData data).validRows.length + (validateCSVData data).invalidRows.length
      = data.length ∧
    (∀ i (h : i < data.length),
      ((validateCSVRow (data.get ⟨i, h⟩) (i + 1)).isValid = true →
        data.get ⟨i, h⟩ ∈ (validateCSVData data).validRows) ∧
      ((validateCSVRow (data.get ⟨i, h⟩) (i + 1)).isValid = false →
        data.get ⟨i, h⟩ ∈ (validateCSVData data).invalidRows)) ∧
    (∀ e ∈ (validateCSVData data).errors, ∃ p ∈ enumFrom 1 data,
      e.row = p.1 ∧ (validateCSVRow p.2 p.1).isValid = false ∧
      e ∈ (validateCSVRow p.2 p.1).errors) ∧
    validateCSVData [] = ⟨true, [], [], []⟩ ∧
    (validateCSVData data).isValid = (validateCSVData data).errors.isEmpty := by
  refine ⟨validateCSVData_validRows data, validateCSVData_invalidRows data,
    validateCSVData_errors data, ?_, ?_, ?_, rfl, rfl⟩
  · rw [validateCSVData_validRows, validateCSVData_invalidRows]
    rw [List.length_map, List.length_map]
    rw [length_filter_partition, enumFrom_length]
  · intro i h
    have hmem := enumFrom_get_mem data 1 i h
    have hcomm : 1 + i = i + 1 := Nat.add_comm 1 i
    rw [hcomm] at hmem
    constructor
    · intro hv
      rw [validateCSVData_validRows]
      exact List.mem_map.mpr ⟨(i + 1, data.get ⟨i, h⟩),
        List.mem_filter.mpr ⟨hmem, by simpa using hv⟩, rfl⟩
    · intro hv
      rw [validateCSVData_invalidRows]
      exact List.mem_map.mpr ⟨(i + 1, data.get ⟨i, h⟩),
        List.mem_filter.mpr ⟨hmem, by simpa using hv⟩, rfl⟩
  · intro e he
    rw [validateCSVData_errors] at he
    obtain ⟨l, hl, hel⟩ := List.mem_flatten.mp he
    obtain ⟨p, hp, hpl⟩ := List.mem_map.mp hl
    subst hpl
    by_cases hv : (validateCSVRow p.2 p.1).isValid
    · rw [if_pos hv] at hel
      exact absurd hel (by simp)
    · rw [if_neg hv] at hel
      exact ⟨p, hp, validateCSVRow_errors_row _ _ _ hel,
        Bool.not_eq_true _ ▸ Bool.of_not_eq_true hv, hel⟩

/-- C4, witness: a one-row batch with a missing phone exercises the
error-tagging conjunct and the per-index partition conjunct. -/
theorem c4_witness :
    (∃ p ∈ enumFrom 1 [badPhoneRow], (⟨1, "phone", requiredStringMsg⟩ : RowError).row = p.1 ∧
      (validateCSVRow p.2 p.1).isValid = false ∧
      (⟨1, "phone", requiredStringMsg⟩ : RowError) ∈ (validateCSVRow p.2 p.1).errors) ∧
    badPhoneRow ∈ (validateCSVData [badPhoneRow]).invalidRows := by
  constructor
  · exact (c4_batch [badPhoneRow]).2.2.2.2.2.1 _ (by decide)
  · have h := ((c4_batch [badPhoneRow]).2.2.2.2.1 0 (by decide)).2 (by decide)
    simpa using h

/-- C5: the Validator always returns its outcome as data — a valid row
yields isValid with an empty error list and an invalid row yields a
non-empty error list (the embedding is a total function, mirroring
that the source never throws and has no side effects: safeParse
returns errors as data and the unreachable catch branch aside, every
operation of validateCSVRow is total); and the Reconciler converts
every per-row validation failure into entries of the invalidRows and
errors sequences of its result. -/
theorem c5_safety :
    (∀ (row : CSVRow) (n : Nat),
      ((validateCSVRow row n).isValid = true ∧ (validateCSVRow row n).errors = []) ∨
      ((validateCSVRow row n).isValid = false ∧ (validateCSVRow row n).errors ≠ [])) ∧
    (∀ (data : List CSVRow) (p : Nat × CSVRow), p ∈ enumFrom 1 data →
      (validateCSVRow p.2 p.1).isValid = false →
      p.2 ∈ (validateCSVData data).invalidRows ∧
      ∀ e ∈ (validateCSVRow p.2 p.1).errors, e ∈ (validateCSVData data).errors) := by
  constructor
  · exact validateCSVRow_dichotomy
  · intro data p hp hv
    constructor
    · rw [validateCSVData_invalidRows]
      exact List.mem_map.mpr ⟨p, List.mem_filter.mpr ⟨hp, by simp [hv]⟩, rfl⟩
    · intro e he
      rw [validateCSVData_errors]
      refine List.mem_flatten.mpr ⟨_, List.mem_map.mpr ⟨p, hp, rfl⟩, ?_⟩
      simpa [hv] using he

/-- C5, witness: the invalid row of a two-row batch lands in
invalidRows and its errors are all reported. -/
theorem c5_witness :
    badPhoneRow ∈ (validateCSVData [badPhoneRow, baseRow]).invalidRows ∧
    ∀ e ∈ (validateCSVRow badPhoneRow 1).errors,
      e ∈ (validateCSVData [badPhoneRow, baseRow]).errors := by
  exact c5_safety.2 [badPhoneRow, baseRow] (1, badPhoneRow) (by decide) (by decide)

/-- C6: for a record whose field phase is clean and whose budget
ordering is satisfied, propertyType Apartment or Villa with bhk absent
(a blank bhk is trimmed to absent by preprocessing) fails with exactly
the error field "bhk" and message "BHK is required for Apartment and
Villa properties", while propertyType Plot, Office or Retail with bhk
absent validates with no error. -/
theorem c6_bhkRule (row : CSVRow) (n : Nat) (lead : Lead)
    (hval : parseShape (processRow row) = .valid lead [])
    (hbud : budgetRefineOk lead = true) :
    ((lead.propertyType = "Apartment" ∨ lead.propertyType = "Villa") → lead.bhk = none →
      validateCSVRow row n = ⟨false, [⟨n, "bhk", bhkRequiredMsg⟩]⟩) ∧
    ((lead.propertyType = "Plot" ∨ lead.propertyType = "Office" ∨
        lead.propertyType = "Retail") → lead.bhk = none →
      validateCSVRow row n = ⟨true, []⟩) := by
  have hbuy := buyer_valid_case _ _ _ hval
  constructor
  · intro hpt hbhk
    have hrefine : bhkRefineOk lead = false := by
      rcases hpt with h | h <;> simp [bhkRefineOk, h, hbhk, optStrTruthy]
    simp [validateCSVRow, hbuy, hrefine, hbud, bhkRefineIssue, joinDot]
  · intro hpt hbhk
    have hrefine : bhkRefineOk lead = true := by
      rcases hpt with h | h | h <;> simp [bhkRefineOk, h, optStrTruthy]
    simp [validateCSVRow, hbuy, hrefine, hbud]

/-- C6, witness: Villa without bhk fails with the BHK message; Office
without bhk succeeds. -/
theorem c6_witness :
    (parseShape (processRow c6Row) = .valid c6Lead [] ∧
      validateCSVRow c6Row 1 = ⟨false, [⟨1, "bhk", bhkRequiredMsg⟩]⟩) ∧
    (parseShape (processRow baseRow) = .valid officeLead [] ∧
      validateCSVRow baseRow 1 = ⟨true, []⟩) := by
  refine ⟨⟨by decide, ?_⟩, ⟨by decide, ?_⟩⟩
  · exact (c6_bhkRule c6Row 1 c6Lead (by decide) (by decide)).1 (Or.inr (by decide)) (by decide)
  · exact (c6_bhkRule baseRow 1 officeLead (by decide) (by decide)).2
      (Or.inr (Or.inl (by decide))) (by decide)

/-- C7: for a record whose field phase is clean and whose BHK rule is
satisfied, both budgets present with budgetMax below budgetMin fail
with exactly the error field "budgetMax" and message "Budget maximum
must be greater than or equal to minimum", while a record with only
one budget present validates with no error. -/
theorem c7_budgetRule (row : CSVRow) (n : Nat) (lead : Lead)
    (hval : parseShape (processRow row) = .valid lead [])
    (hbhk : bhkRefineOk lead = true) :
    (∀ m k : Int, lead.budgetMin = some m → lead.budgetMax = some k → k < m →
      validateCSVRow row n = ⟨false, [⟨n, "budgetMax", budgetOrderMsg⟩]⟩) ∧
    ((lead.budgetMin = none ∨ lead.budgetMax = none) →
      validateCSVRow row n = ⟨true, []⟩) := by
  have hbuy := buyer_valid_case _ _ _ hval
  have hpos := parseShape_valid_budget_pos _ _ hval
  constructor
  · intro m k hm hk hlt
    have hm0 : ¬(m = 0) := by have := hpos.1 m hm; omega
    have hk0 : ¬(k = 0) := by have := hpos.2 k hk; omega
    have hrefine : budgetRefineOk lead = false := by
      simp [budgetRefineOk, hm, hk, optIntTruthy, hm0, hk0, hlt]
    simp [validateCSVRow, hbuy, hrefine, hbhk, budgetRefineIssue, joinDot]
  · intro hnone
    have hrefine : budgetRefineOk lead = true := by
      rcases hnone with h | h <;> simp [budgetRefineOk, h, optIntTruthy]
    simp [validateCSVRow, hbuy, hrefine, hbhk]

/-- C7, witness: budgetMin 2000000 with budgetMax 1000000 fails with
the ordering message; budgetMin alone succeeds. -/
theorem c7_witness :
    (parseShape (processRow c7Row) = .valid c7Lead [] ∧
      validateCSVRow c7Row 1 = ⟨false, [⟨1, "budgetMax", budgetOrderMsg⟩]⟩) ∧
    (parseShape (processRow c7bRow) = .valid c7bLead [] ∧
      validateCSVRow c7bRow 1 = ⟨true, []⟩) := by
  refine ⟨⟨by decide, ?_⟩, ⟨by decide, ?_⟩⟩
  · exact (c7_budgetRule c7Row 1 c7Lead (by decide) (by decide)).1 2000000 1000000
      (by decide) (by decide) (by decide)
  · exact (c7_budgetRule c7bRow 1 c7bLead (by decide) (by decide)).2 (Or.inr (by decide))

/-- C8: a present budget string parsing to an integer m that is zero or
negative is rejected out-of-range — the row is invalid and carries a
too-small error on that budget field — while the schema accepts every
strictly positive integer budget with no issue. -/
theorem c8_positiveBudgets :
    (∀ (row : CSVRow) (n : Nat) (s : String) (m : Int),
      row.budgetMin = some s → s ≠ "" → jsParseInt s = some m → m ≤ 0 →
      (validateCSVRow row n).isValid = false ∧
      (⟨n, "budgetMin", positiveNumberMsg⟩ : RowError) ∈ (validateCSVRow row n).errors) ∧
    (∀ (row : CSVRow) (n : Nat) (s : String) (m : Int),
      row.budgetMax = some s → s ≠ "" → jsParseInt s = some m → m ≤ 0 →
      (validateCSVRow row n).isValid = false ∧
      (⟨n, "budgetMax", positiveNumberMsg⟩ : RowError) ∈ (validateCSVRow row n).errors) ∧
    (∀ (f : String) (m : Int), 0 < m →
      parseBudgetField f (some (some m)) = .valid (some m) []) := by
  refine ⟨?_, ?_, ?_⟩
  · intro row n s m hs hne hparse hm
    apply budgetMin_nonpos_spec row n m ?_ hm
    simp [processRow, hs, hne, hparse]
  · intro row n s m hs hne hparse hm
    apply budgetMax_nonpos_spec row n m ?_ hm
    simp [processRow, hs, hne, hparse]
  · intro f m hm
    have h0 : ¬(m ≤ 0) := by omega
    simp [parseBudgetField, h0]

/-- C8, witness: budgetMin "0" and budgetMax "-5" are rejected as
out-of-range; 5 is accepted by the schema. -/
theorem c8_witness :
    ((validateCSVRow c8Row 1).isValid = false ∧
      (⟨1, "budgetMin", positiveNumberMsg⟩ : RowError) ∈ (validateCSVRow c8Row 1).errors) ∧
    ((validateCSVRow c8bRow 1).isValid = false ∧
      (⟨1, "budgetMax", positiveNumberMsg⟩ : RowError) ∈ (validateCSVRow c8bRow 1).errors) ∧
    parseBudgetField "budgetMin" (some (some 5)) = .valid (some 5) [] := by
  refine ⟨?_, ?_, ?_⟩
  · exact c8_positiveBudgets.1 c8Row 1 "0" 0 rfl (by decide) (by decide) (by decide)
  · exact c8_positiveBudgets.2.1 c8bRow 1 "-5" (-5) rfl (by decide) (by decide) (by decide)
  · exact c8_positiveBudgets.2.2 "budgetMin" 5 (by decide)

/-- C9: tags preprocessing splits the input on commas, trims every
piece and drops the empty pieces, preserving order (the result is a
sublist of the trimmed pieces containing no empty string); an absent
tags input defaults to the empty sequence; and the concrete input
"urgent, family ,," normalizes to the sequence urgent, family, which
the validated Lead carries through unchanged. -/
theorem c9_tags :
    (∀ row : CSVRow, row.tags = none → (processRow row).tags = some []) ∧
    (∀ (row : CSVRow) (s : String), row.tags = some s → s ≠ "" →
      (processRow row).tags =
        some (((jsSplit ',' s).map jsTrim).filter (fun t => !(t = ""))) ∧
      ∀ l, (processRow row).tags = some l →
        l.Sublist ((jsSplit ',' s).map jsTrim) ∧ "" ∉ l) ∧
    (processRow c9Row).tags = some ["urgent", "family"] ∧
    ((buyerSchemaSafeParse (processRow c9Row)).value?.map Lead.tags) =
      some ["urgent", "family"] := by
  refine ⟨?_, ?_, by decide, by decide⟩
  · intro row h
    simp [processRow, h]
  · intro row s hs hne
    have heq : (processRow row).tags =
        some (((jsSplit ',' s).map jsTrim).filter (fun t => !(t = ""))) := by
      simp [processRow, hs, hne]
    refine ⟨heq, ?_⟩
    intro l hl
    rw [heq] at hl
    injection hl with hl
    subst hl
    constructor
    · exact List.filter_sublist _
    · intro hmem
      have := List.of_mem_filter hmem
      simp at this

/-- C9, witness: the defaulting conjunct at a row without tags and the
splitting conjuncts at the concrete example input. -/
theorem c9_witness :
    (processRow c9bRow).tags = some [] ∧
    (processRow c9Row).tags =
      some (((jsSplit ',' "urgent, family ,,").map jsTrim).filter (fun t => !(t = ""))) ∧
    (["urgent", "family"] : List String).Sublist
      ((jsSplit ',' "urgent, family ,,").map jsTrim) ∧
    "" ∉ (["urgent", "family"] : List String) := by
  have h := c9_tags.2.1 c9Row "urgent, family ,," rfl (by decide)
  have h2 := h.2 ["urgent", "family"] (by decide)
  exact ⟨c9_tags.1 c9bRow rfl, h.1, h2.1, h2.2⟩

/-- C10, counterexample: the budget string "0.5" begins with the
parseable integer prefix 0 followed by extra characters, yet
validateCSVRow rejects the field (the truncated prefix 0 fails the
positivity check) instead of accepting it silently, contrary to the
claim that no such string is ever rejected. -/
theorem c10_counterexample :
    jsParseInt "0.5" = some 0 ∧
    (validateCSVRow c10Row 1).isValid = false ∧
    (∃ e ∈ (validateCSVRow c10Row 1).errors, e.field = "budgetMin") := by
  decide

/-- C10, amended: a present budget string with a parseable integer
prefix m is never treated as absent — the schema receives exactly m —
and it is accepted silently (no budgetMin error) exactly when m is
strictly positive; a zero or negative prefix is rejected by the
positivity check. -/
theorem c10_amended (row : CSVRow) (n : Nat) (s : String) (m : Int)
    (hs : row.budgetMin = some s) (hne : s ≠ "") (hparse : jsParseInt s = some m) :
    (processRow row).budgetMin = some (some m) ∧
    (0 < m → ∀ e ∈ (validateCSVRow row n).errors, e.field ≠ "budgetMin") ∧
    (m ≤ 0 → (validateCSVRow row n).isValid = false ∧
      (⟨n, "budgetMin", positiveNumberMsg⟩ : RowError) ∈ (validateCSVRow row n).errors) := by
  have hpr : (processRow row).budgetMin = some (some m) := by
    simp [processRow, hs, hne, hparse]
  refine ⟨hpr, ?_, ?_⟩
  · intro hm e he
    apply no_budgetMin_error row n ?_ e he
    rw [hpr]
    have h0 : ¬(m ≤ 0) := by omega
    simp [parseBudgetField, h0]
  · intro hm
    exact budgetMin_nonpos_spec row n m hpr hm

/-- C10, witness: the budget string "1000abc" is truncated to 1000 and
accepted with no budgetMin error. -/
theorem c10_witness :
    (processRow c10wRow).budgetMin = some (some 1000) ∧
    (∀ e ∈ (validateCSVRow c10wRow 1).errors, e.field ≠ "budgetMin") := by
  have h := c10_amended c10wRow 1 "1000abc" 1000 rfl (by decide) (by decide)
  exact ⟨h.1, h.2.1 (by decide)⟩

end EstateSync
